import Mathlib

/-!
Verification of Course Builder core behaviours.

The repository's own Python sources under `src/controllers` are embedded
directly (`store_score`, `AnswerHandler.update_assessment_transaction`).
The model classes they call (`models/utils.py`, `models/courses.py`,
`models/progress.py`, `models/vfs.py`, `tools/etl/etl.py`) are not part of
this repository snapshot; where a property depends on them they are modelled
from the specification and from the behaviour pinned down by the functional
tests in `src/tests/functional/tests.py`.
-/

namespace CourseBuilder

/-- Pointwise update of a finite map represented as a function. -/
def upd {α β : Type} [DecidableEq α] (f : α → β) (a : α) (b : β) : α → β :=
  fun x => if x = a then b else f x

/-- Python's `int()` applied to a rational number: truncation toward zero,
computed as truncating division of numerator by denominator. -/
def pyInt (q : ℚ) : ℤ :=
  q.num.tdiv q.den

/-- A student's stored scores: the per-student mapping
`assessment_type -> best_score_ever_seen` read by `course.get_score` and
written by `utils.set_score`. Assessment types are strings, scores are
numbers (modelled as rationals, since Python numbers may be fractional). -/
def Scores : Type := String → Option ℚ

/-- Modelled from the spec: `models/utils.py` is not in this snapshot;
`utils.set_score(student, t, s)` records `s` as the stored score for
assessment type `t` in the student's score mapping. -/
def set_score (st : Scores) (assessment_type : String) (score : ℚ) : Scores :=
  upd st assessment_type (some score)

/-- The update guard of `store_score` in `src/controllers/assessments.py`
(lines 50-53): `(existing_score is None) or (score > int(existing_score))`. -/
def store_score_updates (st : Scores) (assessment_type : String) (score : ℚ) : Bool :=
  match st assessment_type with
  | none => true
  | some existing_score => decide (score > (pyInt existing_score : ℚ))

/-- The function `store_score` from `src/controllers/assessments.py`
lines 50-53:
reads the existing score, and calls `utils.set_score` exactly when the
existing score is absent or the new score exceeds its `int()` truncation. -/
def store_score (st : Scores) (assessment_type : String) (score : ℚ) : Scores :=
  match st assessment_type with
  | none => set_score st assessment_type score
  | some existing_score =>
      if score > (pyInt existing_score : ℚ) then set_score st assessment_type score
      else st

/-! ### Overall score (modelled from the spec: `models/courses.py` is not in
this snapshot; behaviour is pinned by `test_custom_assessments`). -/

/-- Modelled from the spec: accumulate `(total_weight, weighted_sum)` over a
student's per-assessment `(weight, best_score)` list, counting only
assessments carrying nonzero weight. -/
def overall_totals : List (ℕ × ℕ) → ℕ × ℕ
  | [] => (0, 0)
  | (w, s) :: rest =>
      let t := overall_totals rest
      if 0 < w then (t.1 + w, t.2 + w * s) else t

/-- Modelled from the spec: `get_overall_score(student)` returns `none`
("no result") when the sum of weights across all assessments with weight > 0
is zero; otherwise the weighted average of best-ever per-assessment scores,
truncated to an integer (natural division). -/
def get_overall_score (scores : List (ℕ × ℕ)) : Option ℕ :=
  let t := overall_totals scores
  if t.1 = 0 then none else some (t.2 / t.1)

/-! ### Content store with read-through cache (modelled from the spec:
`models/vfs.py` is not in this snapshot; behaviour is pinned by
`test_datastore_backed_file_system`). -/

/-- A stored entity's observable payload: its bytes and its draft flag. -/
structure StoredFile where
  content : List ℕ
  is_draft : Bool
deriving DecidableEq

/-- Datastore-backed file system state: the durable store plus the
read-through cache. A cache entry `some v` caches the store lookup result
`v` for that path; `none` means the key is not cached. -/
structure FsState where
  store : String → Option StoredFile
  cache : String → Option (Option StoredFile)

/-- The file system with an entirely empty store and cache. -/
def fsEmpty : FsState :=
  ⟨fun _ => none, fun _ => none⟩

/-- Modelled from the spec: `put` fully overwrites prior content and
metadata, and the cache entry for the key is invalidated (removed, not
updated in place). -/
def fs_put (s : FsState) (p : String) (f : StoredFile) : FsState :=
  ⟨upd s.store p (some f), upd s.cache p none⟩

/-- Modelled from the spec: `delete` removes the entity (absent path is a
no-op on the store) and invalidates the cache entry for the key. -/
def fs_delete (s : FsState) (p : String) : FsState :=
  ⟨upd s.store p none, upd s.cache p none⟩

/-- Modelled from the spec: on `get`, a cache hit returns immediately; a
miss fetches from the store and populates the cache with the exact result
retrieved. Returns the lookup result and the new state. -/
def fs_get (s : FsState) (p : String) : Option StoredFile × FsState :=
  match s.cache p with
  | some v => (v, s)
  | none => (s.store p, ⟨s.store, upd s.cache p (some (s.store p))⟩)

/-- One content-store operation. -/
inductive FsOp where
  | put (p : String) (f : StoredFile)
  | del (p : String)
  | get (p : String)
deriving DecidableEq

/-- The state transition of one operation (a `get` may populate the cache). -/
def fs_step (s : FsState) : FsOp → FsState
  | .put p f => fs_put s p f
  | .del p => fs_delete s p
  | .get p => (fs_get s p).2

/-- Run a sequence of content-store operations. -/
def fs_run (s : FsState) (ops : List FsOp) : FsState :=
  ops.foldl fs_step s

/-! ### Progress tracker (modelled from the spec: `models/progress.py` is
not in this snapshot; behaviour is pinned by `test_progress`, which asserts
statuses 0 = not-started, 1 = in-progress, 2 = completed, and per-assessment
counters 1, 2, 3 after three submissions). -/

/-- The shape of the course as the tracker sees it: for each
`(unit_id, lesson_id)` pair either `none` (no such lesson) or the list of
interactive block ids defined for that lesson's activity; plus the set of
valid assessment ids. -/
structure TrackerCourse where
  lessonBlocks : ℕ → ℕ → Option (List ℕ)
  validAssessment : String → Bool

/-- A student's progress record: per-block completion flags, per-lesson
activity status (0 not-started, 1 in-progress, 2 completed), and the
per-assessment submission counter. -/
structure TrackerProgress where
  blockDone : ℕ × ℕ × ℕ → Bool
  activityStatus : ℕ × ℕ → ℕ
  assessmentStatus : String → ℕ

/-- Initial progress: everything not-started. -/
def initProgress : TrackerProgress :=
  ⟨fun _ => false, fun _ => 0, fun _ => 0⟩

/-- Modelled from the spec: mark one interactive block complete. Unknown
unit, lesson or block ids are silently ignored. On a valid block the block
flag is set and the lesson's activity status is recomputed: completed when
every block id defined for the activity is now marked, in-progress
otherwise. -/
def put_block_completed (c : TrackerCourse) (st : TrackerProgress)
    (u l b : ℕ) : TrackerProgress :=
  match c.lessonBlocks u l with
  | none => st
  | some bs =>
      if b ∈ bs then
        let bd := upd st.blockDone (u, l, b) true
        let completed := bs.all fun x => bd (u, l, x)
        ⟨bd, upd st.activityStatus (u, l) (if completed then 2 else 1),
          st.assessmentStatus⟩
      else st

/-- Modelled from the spec: record that a lesson's activity page was
accessed; a lesson whose activity has no interactive blocks transitions
directly to completed. Unknown ids are silently ignored. -/
def put_activity_accessed (c : TrackerCourse) (st : TrackerProgress)
    (u l : ℕ) : TrackerProgress :=
  match c.lessonBlocks u l with
  | none => st
  | some bs =>
      if bs.isEmpty then
        ⟨st.blockDone, upd st.activityStatus (u, l) 2, st.assessmentStatus⟩
      else st

/-- Modelled from the spec: mark a lesson's activity completed outright.
Unknown unit or lesson ids are silently ignored. -/
def put_activity_completed (c : TrackerCourse) (st : TrackerProgress)
    (u l : ℕ) : TrackerProgress :=
  match c.lessonBlocks u l with
  | none => st
  | some _ =>
      ⟨st.blockDone, upd st.activityStatus (u, l) 2, st.assessmentStatus⟩

/-- Modelled from the spec and `test_progress`: record a completed
assessment submission. An unknown assessment id is silently ignored; a
known id's counter is incremented by one (the test asserts counters
1, 2, 3 after three submissions). -/
def put_assessment_completed (c : TrackerCourse) (st : TrackerProgress)
    (aid : String) : TrackerProgress :=
  if c.validAssessment aid then
    ⟨st.blockDone, st.activityStatus,
      upd st.assessmentStatus aid (st.assessmentStatus aid + 1)⟩
  else st

/-- Run a sequence of block-completion events from a given progress state. -/
def run_blocks (c : TrackerCourse) (st : TrackerProgress)
    (evs : List (ℕ × ℕ × ℕ)) : TrackerProgress :=
  evs.foldl (fun st e => put_block_completed c st e.1 e.2.1 e.2.2) st

/-- Submit the same assessment `n` times from the initial progress state. -/
def iterate_submit (c : TrackerCourse) (aid : String) : ℕ → TrackerProgress
  | 0 => initProgress
  | n + 1 => put_assessment_completed c (iterate_submit c aid n) aid

/-! ### Student update transaction, from
`src/controllers/assessments.py`, `AnswerHandler.update_assessment_transaction`
(lines 172-212). The `db.transactional(xg=True)` decorator makes the method
body one atomic cross-group transaction: it is embedded as a single step
producing either `none` (the transaction aborted, nothing written) or the
datastore with both entity writes applied. -/

/-- A `Student` entity as the transaction touches it: its datastore key
(`user_id`) and its per-assessment best-score mapping. -/
structure StudentRec where
  user_id : String
  scores : Scores

/-- A `StudentAnswersEntity`: the student's latest raw answers per
assessment type (overwritten, not versioned). -/
structure AnswersRec where
  answers : String → Option String

/-- The two entity groups the transaction spans: `Student` entities keyed
by email and `StudentAnswersEntity` entities keyed by `user_id`. -/
structure Datastore where
  students : String → Option StudentRec
  answers : String → Option AnswersRec

/-- Modelled from the spec: `utils.set_answer` (from the missing
`models/utils.py`) overwrites the student's latest raw answers for one
assessment type. -/
def set_answer (a : AnswersRec) (assessment_type new_answers : String) :
    AnswersRec :=
  ⟨upd a.answers assessment_type (some new_answers)⟩

/-- The lookup `StudentAnswersEntity.get_by_key_name` followed by the
`if not answers: answers = StudentAnswersEntity(key_name=...)` fallback of
`update_assessment_transaction`. -/
def answers_or_new (ds : Datastore) (user_id : String) : AnswersRec :=
  match ds.answers user_id with
  | some a => a
  | none => ⟨fun _ => none⟩

/-- The method `AnswerHandler.update_assessment_transaction` from
`src/controllers/assessments.py` lines 172-212: look up the enrolled
student, fetch or create the answers entity, `set_answer`, `store_score`,
then put both entities. A missing student aborts the whole transaction
(`none`): no write happens. -/
def update_assessment_transaction (ds : Datastore)
    (email assessment_type new_answers : String) (score : ℚ) :
    Option Datastore :=
  match ds.students email with
  | none => none
  | some student =>
      let a1 := set_answer (answers_or_new ds student.user_id)
        assessment_type new_answers
      let student1 : StudentRec :=
        ⟨student.user_id, store_score student.scores assessment_type score⟩
      some ⟨upd ds.students email (some student1),
        upd ds.answers student.user_id (some a1)⟩

/-- The datastore after the transaction runs: on abort the datastore is
unchanged (nothing was committed). -/
def run_transaction (ds : Datastore)
    (email assessment_type new_answers : String) (score : ℚ) : Datastore :=
  (update_assessment_transaction ds email assessment_type new_answers
    score).getD ds

/-! ### Archive export/import (modelled from the spec: `tools/etl/etl.py`
is not in this snapshot; behaviour is pinned by `EtlMainTestCase`). -/

/-- One manifest line: path, draft flag, size, and content checksum of a
stored entity. -/
structure ManifestEntry where
  path : String
  is_draft : Bool
  size : ℕ
  checksum : ℕ
deriving DecidableEq

/-- A stored course entity as the archive transfer sees it. -/
structure CourseEntity where
  path : String
  content : List ℕ
  is_draft : Bool
deriving DecidableEq

/-- Modelled from the spec: an unspecified content checksum; any
deterministic function of the bytes. -/
def content_checksum (content : List ℕ) : ℕ :=
  content.foldl (fun h b => h * 31 + b + 1) 0

/-- The manifest line describing one stored entity. -/
def manifest_entry_of (e : CourseEntity) : ManifestEntry :=
  ⟨e.path, e.is_draft, e.content.length, content_checksum e.content⟩

/-- An archive bundle: the manifest plus one file of bytes per entity,
named by its path. -/
structure Archive where
  manifest : List ManifestEntry
  files : List (String × List ℕ)

/-- A destination course: its course-tree unit list and its stored
entities. -/
structure DestCourse where
  units : List ℕ
  entities : List CourseEntity
deriving DecidableEq

/-- Classified import failures (only the ones the claims need). -/
inductive UploadError where
  | state_conflict
  | archive_malformed
deriving DecidableEq

/-- Modelled from the spec: export enumerates every stored entity, writes
its bytes into a bundle file named after its path, and emits a manifest
listing every entity with draft flag, size and checksum. -/
def export_course (src : List CourseEntity) : Archive :=
  ⟨src.map manifest_entry_of, src.map fun e => (e.path, e.content)⟩

/-- Read back every manifest-listed entity from the bundle files; a
manifest entry whose file is missing makes the whole archive malformed. -/
def restore_entities (files : List (String × List ℕ)) :
    List ManifestEntry → Option (List CourseEntity)
  | [] => some []
  | me :: rest =>
      match files.lookup me.path with
      | none => none
      | some content =>
          (restore_entities files rest).map fun es =>
            ⟨me.path, content, me.is_draft⟩ :: es

/-- Modelled from the spec: import refuses to proceed when the destination
already has tree content (non-empty unit list), classifying the failure as
a state conflict; otherwise every manifest-listed entity is written into
the destination with its recorded draft flag. Failures touch nothing. -/
def upload_course (a : Archive) (dest : DestCourse) :
    Except UploadError DestCourse :=
  if dest.units.isEmpty then
    match restore_entities a.files a.manifest with
    | none => Except.error UploadError.archive_malformed
    | some es => Except.ok ⟨dest.units, dest.entities ++ es⟩
  else Except.error UploadError.state_conflict

/-- The destination after an upload attempt: a failed import guarantees
zero destination mutation. -/
def run_upload (a : Archive) (dest : DestCourse) : DestCourse :=
  match upload_course a dest with
  | Except.ok d => d
  | Except.error _ => dest

/-! ### Concrete instances used to exercise the theorems. -/

/-- The rational 5/2, a fractional stored best. -/
def fiveHalves : ℚ := Rat.mk' 5 2 (by norm_num) (by norm_num)

/-- The rational 9/4. -/
def nineQuarters : ℚ := Rat.mk' 9 4 (by norm_num) (by norm_num)

/-- A score mapping with best 3 recorded for assessment type "Pre". -/
def scoresPre3 : Scores := upd (fun _ => none) "Pre" (some 3)

/-- A score mapping with fractional best 5/2 recorded for "Pre". -/
def scoresPreHalf : Scores := upd (fun _ => none) "Pre" (some fiveHalves)

/-- The sample course of `test_progress`: Lesson 1.2 has interactive
blocks 3 and 6, Lesson 2.1 has an activity with no interactive blocks,
and "Pre" is the only assessment id. -/
def sampleCourse : TrackerCourse :=
  ⟨fun u l =>
    if u = 1 ∧ l = 2 then some [3, 6]
    else if u = 2 ∧ l = 1 then some []
    else none,
   fun aid => aid == "Pre"⟩

/-- A concrete non-draft file. -/
def fileX : StoredFile := ⟨[1, 2], false⟩

/-- A concrete draft file, different from `fileX`. -/
def fileY : StoredFile := ⟨[3], true⟩

/-- Two stored entities with distinct paths. -/
def sampleEntities : List CourseEntity :=
  [⟨"/course.yaml", [10, 20], false⟩, ⟨"/assets/js/foo.js", [7], true⟩]

/-- An empty destination course. -/
def emptyDest : DestCourse := ⟨[], []⟩

/-- A destination course that already has tree content (one unit). -/
def unitDest : DestCourse := ⟨[1], []⟩

/-- Cache coherence at one path: whatever the cache holds for the path is
exactly what the store holds. -/
def coherentAt (s : FsState) (p : String) : Prop :=
  ∀ v, s.cache p = some v → v = s.store p

/-! ### General lemmas. -/

theorem upd_same {α β : Type} [DecidableEq α] (f : α → β) (a : α) (b : β) :
    upd f a b a = b := by
  simp [upd]

theorem upd_other {α β : Type} [DecidableEq α] (f : α → β) (a : α) (b : β)
    {x : α} (h : x ≠ a) : upd f a b x = f x := by
  simp [upd, h]

theorem tdiv_one_eq (m : ℤ) : m.tdiv 1 = m := by
  cases m <;> simp [Int.tdiv, Int.negSucc_eq]

theorem pyInt_intCast (n : ℤ) : pyInt (n : ℚ) = n := by
  simp [pyInt, Rat.num_intCast, Rat.den_intCast, tdiv_one_eq]

theorem store_score_none (st : Scores) (a : String) (s : ℚ)
    (h : st a = none) : store_score st a s = set_score st a s := by
  unfold store_score
  rw [h]

theorem store_score_some (st : Scores) (a : String) (s e : ℚ)
    (h : st a = some e) :
    store_score st a s =
      if s > (pyInt e : ℚ) then set_score st a s else st := by
  unfold store_score
  rw [h]

theorem store_score_updates_none (st : Scores) (a : String) (s : ℚ)
    (h : st a = none) : store_score_updates st a s = true := by
  unfold store_score_updates
  rw [h]

theorem store_score_updates_some (st : Scores) (a : String) (s e : ℚ)
    (h : st a = some e) :
    store_score_updates st a s = decide (s > (pyInt e : ℚ)) := by
  unfold store_score_updates
  rw [h]

/-- Integer scores stay integer: `store_score` called with an integer score
(the POST handler always submits `int(round(float(score)))`) keeps every
recorded best an integer. This justifies restricting the monotonicity claim
to integer recorded bests: no other write path exists. -/
theorem store_score_int_invariant (st : Scores) (a : String) (n : ℤ)
    (h : ∀ t q, st t = some q → ∃ m : ℤ, q = (m : ℚ)) :
    ∀ t q, store_score st a (n : ℚ) t = some q → ∃ m : ℤ, q = (m : ℚ) := by
  have hset : ∀ t q, set_score st a (n : ℚ) t = some q → ∃ m : ℤ, q = (m : ℚ) := by
    intro t q hq
    by_cases hx : t = a
    · subst hx
      rw [set_score, upd_same] at hq
      injection hq with hq'
      exact ⟨n, hq'.symm⟩
    · rw [set_score, upd_other _ _ _ hx] at hq
      exact h t q hq
  intro t q
  cases hst : st a with
  | none =>
      rw [store_score_none st a _ hst]
      exact hset t q
  | some e =>
      rw [store_score_some st a _ e hst]
      by_cases hgt : (n : ℚ) > (pyInt e : ℚ)
      · rw [if_pos hgt]
        exact hset t q
      · rw [if_neg hgt]
        exact h t q

/-- C10: `store_score` calls `set_score` exactly when no best exists yet or
the submitted score strictly exceeds the `int()` truncation of the existing
best (the fractional part of a stored best is discarded before the
comparison), and submitting a score equal to the current best leaves the
stored mapping unchanged. -/
theorem store_score_update_iff (st : Scores) (a : String) (s : ℚ) :
    store_score st a s =
      (if store_score_updates st a s then set_score st a s else st) ∧
    (store_score_updates st a s = true ↔
      st a = none ∨ ∃ e, st a = some e ∧ (pyInt e : ℚ) < s) ∧
    (∀ e, st a = some e → s = e → store_score st a s = st) := by
  refine ⟨?_, ?_, ?_⟩
  · cases h : st a with
    | none =>
        rw [store_score_none st a s h, store_score_updates_none st a s h,
          if_pos rfl]
    | some e =>
        rw [store_score_some st a s e h, store_score_updates_some st a s e h]
        by_cases hgt : s > (pyInt e : ℚ) <;> simp [hgt]
  · cases h : st a with
    | none => simp [store_score_updates_none st a s h, h]
    | some e =>
        rw [store_score_updates_some st a s e h]
        simp [h, gt_iff_lt]
  · intro e he hse
    rw [store_score_some st a s e he]
    by_cases hgt : s > (pyInt e : ℚ)
    · rw [if_pos hgt]
      funext x
      by_cases hx : x = a
      · subst hx
        rw [set_score, upd_same, he, hse]
      · rw [set_score, upd_other _ _ _ hx]
    · rw [if_neg hgt]

/-- Witness for C10 at concrete inputs: with fractional best 5/2 stored for
"Pre", a submission of 9/4 (lower than the best, but above its truncation 2)
triggers the update guard; and resubmitting the exact current best 3 leaves
the stored mapping unchanged. -/
theorem store_score_update_iff_witness :
    store_score_updates scoresPreHalf "Pre" nineQuarters = true ∧
    (store_score_updates scoresPreHalf "Pre" nineQuarters = true ↔
      scoresPreHalf "Pre" = none ∨
        ∃ e, scoresPreHalf "Pre" = some e ∧ (pyInt e : ℚ) < nineQuarters) ∧
    scoresPre3 "Pre" = some (3 : ℚ) ∧
    store_score scoresPre3 "Pre" 3 = scoresPre3 :=
  ⟨by decide, (store_score_update_iff scoresPreHalf "Pre" nineQuarters).2.1,
   by decide, (store_score_update_iff scoresPre3 "Pre" 3).2.2 3 (by decide) rfl⟩

/-- C1: with an integer best `b` recorded for the assessment type (the only
write path submits integer scores, see `store_score_int_invariant`),
submitting a lower score leaves the stored mapping unchanged and submitting
a higher score replaces the stored best with the new score. -/
theorem store_score_monotonic (st : Scores) (a : String) (s b : ℚ) (n : ℤ)
    (hb : st a = some b) (hn : b = (n : ℚ)) :
    (s < b → store_score st a s = st) ∧
    (b < s → store_score st a s a = some s) := by
  have hp : (pyInt b : ℚ) = b := by rw [hn, pyInt_intCast]
  constructor
  · intro hlt
    rw [store_score_some st a s b hb, if_neg]
    rw [gt_iff_lt, hp]
    exact not_lt_of_gt hlt
  · intro hlt
    rw [store_score_some st a s b hb, if_pos (by rw [gt_iff_lt, hp]; exact hlt),
      set_score, upd_same]

/-- Witness for C1: best 3 recorded for "Pre"; submitting 2 changes
nothing, submitting 5 replaces the best with 5. -/
theorem store_score_monotonic_witness :
    store_score scoresPre3 "Pre" 2 = scoresPre3 ∧
    store_score scoresPre3 "Pre" 5 "Pre" = some 5 :=
  ⟨(store_score_monotonic scoresPre3 "Pre" 2 3 3 (by decide)
      (by decide)).1 (by decide),
   (store_score_monotonic scoresPre3 "Pre" 5 3 3 (by decide)
      (by decide)).2 (by decide)⟩

/-! ### Overall score theorems. -/

theorem overall_totals_eq (l : List (ℕ × ℕ)) :
    overall_totals l =
      (((l.filter fun p => decide (0 < p.1)).map Prod.fst).sum,
       ((l.filter fun p => decide (0 < p.1)).map fun p => p.1 * p.2).sum) := by
  induction l with
  | nil => rfl
  | cons hd tl ih =>
      cases hd with
      | mk w s =>
          by_cases hw : 0 < w <;>
            simp [overall_totals, List.filter_cons, hw, ih, Prod.ext_iff] <;>
            constructor <;> ring

/-- C2: `get_overall_score` returns "no result" exactly when the sum of
weights over the assessments with weight > 0 is zero; otherwise it returns
the weighted average of the per-assessment best scores, weighted only by
the assessments with nonzero weight, truncated to an integer by natural
division. -/
theorem get_overall_score_spec (scores : List (ℕ × ℕ)) :
    (get_overall_score scores = none ↔
      ((scores.filter fun p => decide (0 < p.1)).map Prod.fst).sum = 0) ∧
    (((scores.filter fun p => decide (0 < p.1)).map Prod.fst).sum ≠ 0 →
      get_overall_score scores =
        some (((scores.filter fun p => decide (0 < p.1)).map
            fun p => p.1 * p.2).sum /
          ((scores.filter fun p => decide (0 < p.1)).map Prod.fst).sum)) := by
  unfold get_overall_score
  rw [overall_totals_eq]
  constructor
  · by_cases h : ((scores.filter fun p => decide (0 < p.1)).map
        Prod.fst).sum = 0 <;> simp [h]
  · intro h
    simp [h]

/-- Witness for C2 on the spec's own example: weights 10 and 30 with best
scores 1 and 3 give floor((1*10 + 3*30)/40) = 2. -/
theorem get_overall_score_spec_witness :
    (((([((10 : ℕ), (1 : ℕ)), (30, 3)]).filter
        fun p => decide (0 < p.1)).map Prod.fst).sum ≠ 0) ∧
    get_overall_score [(10, 1), (30, 3)] =
      some (((([((10 : ℕ), (1 : ℕ)), (30, 3)]).filter
          fun p => decide (0 < p.1)).map fun p => p.1 * p.2).sum /
        ((([((10 : ℕ), (1 : ℕ)), (30, 3)]).filter
          fun p => decide (0 < p.1)).map Prod.fst).sum) ∧
    get_overall_score [(10, 1), (30, 3)] = some 2 ∧
    get_overall_score [(0, 1), (0, 3)] = none :=
  ⟨by decide, (get_overall_score_spec [(10, 1), (30, 3)]).2 (by decide),
   by decide, by decide⟩

/-! ### Content store theorems. -/

theorem fs_get_cached (s : FsState) (p : String) (v : Option StoredFile)
    (h : s.cache p = some v) : fs_get s p = (v, s) := by
  unfold fs_get
  rw [h]

theorem fs_get_miss (s : FsState) (p : String) (h : s.cache p = none) :
    fs_get s p = (s.store p, ⟨s.store, upd s.cache p (some (s.store p))⟩) := by
  unfold fs_get
  rw [h]

/-- Under cache coherence at a path, a read returns exactly what the store
holds at that path. -/
theorem fs_get_coherent (s : FsState) (p : String) (hc : coherentAt s p) :
    (fs_get s p).1 = s.store p := by
  cases h : s.cache p with
  | none => rw [fs_get_miss s p h]
  | some v => rw [fs_get_cached s p v h]; exact hc v h

/-- Every operation preserves cache coherence at a path, and preserves the
fact that the store does not hold a given file at that path, as long as the
operation is not a put of that very file at that path. -/
theorem fs_step_inv (p : String) (X : StoredFile) (s : FsState) (op : FsOp)
    (hc : coherentAt s p) (hs : s.store p ≠ some X)
    (hop : op ≠ FsOp.put p X) :
    coherentAt (fs_step s op) p ∧ (fs_step s op).store p ≠ some X := by
  cases op with
  | put q f =>
      by_cases hq : p = q
      · subst hq
        have hf : f ≠ X := fun hf => hop (by rw [hf])
        constructor
        · intro v hv
          simp [fs_step, fs_put, upd] at hv
        · simp [fs_step, fs_put, upd, hf]
      · constructor
        · intro v hv
          simp only [fs_step, fs_put, upd, if_neg hq] at hv ⊢
          exact hc v hv
        · simp only [fs_step, fs_put, upd, if_neg hq]
          exact hs
  | del q =>
      by_cases hq : p = q
      · subst hq
        constructor
        · intro v hv
          simp [fs_step, fs_delete, upd] at hv
        · simp [fs_step, fs_delete, upd]
      · constructor
        · intro v hv
          simp only [fs_step, fs_delete, upd, if_neg hq] at hv ⊢
          exact hc v hv
        · simp only [fs_step, fs_delete, upd, if_neg hq]
          exact hs
  | get q =>
      cases h : s.cache q with
      | some v =>
          rw [fs_step, fs_get_cached s q v h]
          exact ⟨hc, hs⟩
      | none =>
          rw [fs_step, fs_get_miss s q h]
          refine ⟨?_, hs⟩
          intro v hv
          by_cases hq : p = q
          · subst hq
            simp only [upd, if_pos rfl] at hv
            injection hv with hv'
            exact hv'.symm
          · simp only [upd, if_neg hq] at hv
            exact hc v hv

/-- Running any sequence of operations containing no `put p X` preserves
coherence at `p` and keeps `X` out of the store at `p`. -/
theorem fs_run_inv (p : String) (X : StoredFile) (ops : List FsOp) :
    ∀ s : FsState, coherentAt s p → s.store p ≠ some X →
      (∀ op ∈ ops, op ≠ FsOp.put p X) →
      coherentAt (fs_run s ops) p ∧ (fs_run s ops).store p ≠ some X := by
  induction ops with
  | nil => exact fun s hc hs _ => ⟨hc, hs⟩
  | cons op rest ih =>
      intro s hc hs hops
      have hstep := fs_step_inv p X s op hc hs (hops op (by simp))
      have := ih (fs_step s op) hstep.1 hstep.2
        (fun o ho => hops o (by simp [ho]))
      simpa [fs_run, List.foldl_cons] using this

/-- C3: a read immediately after a put returns exactly the bytes and draft
flag just written, regardless of the prior cache state; and after
`put p X` then `put p Y` (with `Y ≠ X`), no later read of `p` ever returns
`X` across any sequence of operations that does not itself re-put `X`. -/
theorem content_store_read_after_write :
    (∀ (s : FsState) (p : String) (f : StoredFile),
      (fs_get (fs_put s p f) p).1 = some f) ∧
    (∀ (s : FsState) (p : String) (X Y : StoredFile) (ops : List FsOp),
      (∀ op ∈ ops, op ≠ FsOp.put p X) → X ≠ Y →
      (fs_get (fs_run (fs_put (fs_put s p X) p Y) ops) p).1 ≠ some X) := by
  constructor
  · intro s p f
    have hcache : (fs_put s p f).cache p = none := by
      simp [fs_put, upd]
    rw [fs_get_miss _ p hcache]
    simp [fs_put, upd]
  · intro s p X Y ops hops hxy
    set s2 := fs_put (fs_put s p X) p Y with hs2
    have hc : coherentAt s2 p := by
      intro v hv
      simp [hs2, fs_put, upd] at hv
    have hsY : s2.store p ≠ some X := by
      simp [hs2, fs_put, upd]
      exact fun h => hxy h.symm
    have hrun := fs_run_inv p X ops s2 hc hsY hops
    rw [fs_get_coherent _ p hrun.1]
    exact hrun.2

/-- Witness for C3: concrete put/put/get sequence on one path. -/
theorem content_store_read_after_write_witness :
    (fs_get (fs_put fsEmpty "/course.yaml" fileX) "/course.yaml").1 =
      some fileX ∧
    (∀ op ∈ [FsOp.get "/course.yaml"],
      op ≠ FsOp.put "/course.yaml" fileX) ∧
    fileX ≠ fileY ∧
    (fs_get (fs_run (fs_put (fs_put fsEmpty "/course.yaml" fileX)
        "/course.yaml" fileY) [FsOp.get "/course.yaml"])
      "/course.yaml").1 ≠ some fileX :=
  ⟨content_store_read_after_write.1 fsEmpty "/course.yaml" fileX,
   by decide, by decide,
   content_store_read_after_write.2 fsEmpty "/course.yaml" fileX fileY
     [FsOp.get "/course.yaml"] (by decide) (by decide)⟩

/-! ### Progress tracker theorems. -/

theorem put_block_completed_none (c : TrackerCourse) (st : TrackerProgress)
    (u l b : ℕ) (h : c.lessonBlocks u l = none) :
    put_block_completed c st u l b = st := by
  unfold put_block_completed
  rw [h]

theorem put_block_completed_some (c : TrackerCourse) (st : TrackerProgress)
    (u l b : ℕ) (bs : List ℕ) (h : c.lessonBlocks u l = some bs) :
    put_block_completed c st u l b =
      if b ∈ bs then
        ⟨upd st.blockDone (u, l, b) true,
         upd st.activityStatus (u, l)
           (if bs.all fun x => upd st.blockDone (u, l, b) true (u, l, x)
            then 2 else 1),
         st.assessmentStatus⟩
      else st := by
  unfold put_block_completed
  rw [h]

theorem put_activity_accessed_some (c : TrackerCourse) (st : TrackerProgress)
    (u l : ℕ) (bs : List ℕ) (h : c.lessonBlocks u l = some bs) :
    put_activity_accessed c st u l =
      if bs.isEmpty then
        ⟨st.blockDone, upd st.activityStatus (u, l) 2, st.assessmentStatus⟩
      else st := by
  unfold put_activity_accessed
  rw [h]

/-- One block-completion event preserves the lesson-completion invariant:
the lesson's activity status is completed exactly when every block id
defined for that activity is marked complete. -/
theorem put_block_completed_inv (c : TrackerCourse) (u l : ℕ) (bs : List ℕ)
    (hl : c.lessonBlocks u l = some bs) (st : TrackerProgress)
    (hinv : st.activityStatus (u, l) = 2 ↔
      ∀ b ∈ bs, st.blockDone (u, l, b) = true)
    (u' l' b' : ℕ) :
    (put_block_completed c st u' l' b').activityStatus (u, l) = 2 ↔
      ∀ b ∈ bs, (put_block_completed c st u' l' b').blockDone (u, l, b) =
        true := by
  cases h' : c.lessonBlocks u' l' with
  | none => rw [put_block_completed_none c st u' l' b' h']; exact hinv
  | some bs' =>
      rw [put_block_completed_some c st u' l' b' bs' h']
      by_cases hb : b' ∈ bs'
      · rw [if_pos hb]
        by_cases hul : (u', l') = (u, l)
        · injection hul with hu hlq
          subst hu
          subst hlq
          have hbs : bs' = bs := by
            rw [hl] at h'
            injection h' with h''
            exact h''.symm
          subst hbs
          cases hall : bs'.all fun x => upd st.blockDone (u', l', b') true
            (u', l', x) with
          | true =>
              dsimp only
              rw [upd_same]
              constructor
              · intro _
                exact List.all_eq_true.mp hall
              · intro _
                rfl
          | false =>
              dsimp only
              rw [upd_same]
              constructor
              · intro h2
                exact absurd h2 (by decide)
              · intro hforall
                have hall2 : (bs'.all fun x =>
                    upd st.blockDone (u', l', b') true (u', l', x)) = true :=
                  List.all_eq_true.mpr hforall
                rw [hall] at hall2
                exact Bool.noConfusion hall2
        · have hx : (u, l) ≠ (u', l') := fun h => hul h.symm
          dsimp only
          rw [upd_other _ _ _ hx]
          have hbd : ∀ b, upd st.blockDone (u', l', b') true (u, l, b) =
              st.blockDone (u, l, b) := fun b =>
            upd_other _ _ _
              (fun h => hul (congrArg (fun t => (t.1, t.2.1)) h).symm)
          simp only [hbd]
          exact hinv
      · rw [if_neg hb]
        exact hinv

/-- The lesson-completion invariant holds after any sequence of
block-completion events. -/
theorem run_blocks_inv (c : TrackerCourse) (u l : ℕ) (bs : List ℕ)
    (hl : c.lessonBlocks u l = some bs) (evs : List (ℕ × ℕ × ℕ)) :
    ∀ st : TrackerProgress,
      (st.activityStatus (u, l) = 2 ↔
        ∀ b ∈ bs, st.blockDone (u, l, b) = true) →
      ((run_blocks c st evs).activityStatus (u, l) = 2 ↔
        ∀ b ∈ bs, (run_blocks c st evs).blockDone (u, l, b) = true) := by
  induction evs with
  | nil => exact fun st hinv => hinv
  | cons e rest ih =>
      intro st hinv
      have hstep := put_block_completed_inv c u l bs hl st hinv e.1 e.2.1 e.2.2
      have := ih (put_block_completed c st e.1 e.2.1 e.2.2) hstep
      simpa [run_blocks, List.foldl_cons] using this

/-- C4: a lesson whose activity defines interactive blocks is completed,
after any sequence of block-completion events from the initial state,
exactly when every distinct block id defined for the activity has been
marked complete at least once; a lesson whose activity has no interactive
blocks transitions directly to completed on first access. -/
theorem lesson_completion_spec (c : TrackerCourse) (u l : ℕ) (bs : List ℕ)
    (hl : c.lessonBlocks u l = some bs) :
    (bs ≠ [] → ∀ evs : List (ℕ × ℕ × ℕ),
      ((run_blocks c initProgress evs).activityStatus (u, l) = 2 ↔
        ∀ b ∈ bs, (run_blocks c initProgress evs).blockDone (u, l, b) =
          true)) ∧
    (bs = [] → ∀ st : TrackerProgress,
      (put_activity_accessed c st u l).activityStatus (u, l) = 2) := by
  constructor
  · intro hne evs
    refine run_blocks_inv c u l bs hl evs initProgress ?_
    constructor
    · intro h0
      simp [initProgress] at h0
    · intro hforall
      cases bs with
      | nil => exact absurd rfl hne
      | cons b rest =>
          have := hforall b (by simp)
          exact Bool.noConfusion this
  · intro hbs st
    subst hbs
    rw [put_activity_accessed_some c st u l [] hl]
    dsimp only [List.isEmpty]
    rw [if_pos rfl]
    dsimp only
    rw [upd_same]

/-- Witness for C4 on the sample course of `test_progress`: Lesson 1.2 has
blocks {3, 6}; completing only block 3 leaves it in-progress (status 1),
completing 3 and 6 completes it; accessing Lesson 2.1 (no interactive
blocks) completes it directly. -/
theorem lesson_completion_spec_witness :
    sampleCourse.lessonBlocks 1 2 = some [3, 6] ∧
    ([3, 6] : List ℕ) ≠ [] ∧
    ((run_blocks sampleCourse initProgress
        [(1, 2, 3), (1, 2, 6)]).activityStatus (1, 2) = 2 ↔
      ∀ b ∈ ([3, 6] : List ℕ),
        (run_blocks sampleCourse initProgress
          [(1, 2, 3), (1, 2, 6)]).blockDone (1, 2, b) = true) ∧
    (run_blocks sampleCourse initProgress [(1, 2, 3)]).activityStatus
      (1, 2) = 1 ∧
    (run_blocks sampleCourse initProgress
      [(1, 2, 3), (1, 2, 6)]).activityStatus (1, 2) = 2 ∧
    sampleCourse.lessonBlocks 2 1 = some [] ∧
    (put_activity_accessed sampleCourse initProgress 2 1).activityStatus
      (2, 1) = 2 :=
  ⟨by decide, by decide,
   (lesson_completion_spec sampleCourse 1 2 [3, 6] (by decide)).1
     (by decide) [(1, 2, 3), (1, 2, 6)],
   by decide, by decide, by decide,
   (lesson_completion_spec sampleCourse 2 1 [] (by decide)).2 rfl
     initProgress⟩

/-- C5: a progress update supplied with an unknown unit, lesson, block or
assessment id changes nothing in the student's progress state (and, being
a total function, raises no error). -/
theorem stale_id_updates_ignored (c : TrackerCourse) (st : TrackerProgress)
    (u l b : ℕ) (aid : String) :
    (c.lessonBlocks u l = none →
      put_block_completed c st u l b = st ∧
      put_activity_completed c st u l = st ∧
      put_activity_accessed c st u l = st) ∧
    (∀ bs, c.lessonBlocks u l = some bs → b ∉ bs →
      put_block_completed c st u l b = st) ∧
    (c.validAssessment aid = false →
      put_assessment_completed c st aid = st) := by
  refine ⟨?_, ?_, ?_⟩
  · intro h
    refine ⟨put_block_completed_none c st u l b h, ?_, ?_⟩
    · unfold put_activity_completed
      rw [h]
    · unfold put_activity_accessed
      rw [h]
  · intro bs h hb
    rw [put_block_completed_some c st u l b bs h, if_neg hb]
  · intro h
    unfold put_assessment_completed
    rw [h]
    exact if_neg Bool.false_ne_true

/-- Witness for C5 on the sample course: unit 9 / lesson 9 is unknown,
block 5 is not defined for Lesson 1.2, and "asdf" is not an assessment. -/
theorem stale_id_updates_ignored_witness :
    sampleCourse.lessonBlocks 9 9 = none ∧
    put_block_completed sampleCourse initProgress 9 9 1 = initProgress ∧
    put_activity_completed sampleCourse initProgress 9 9 = initProgress ∧
    sampleCourse.lessonBlocks 1 2 = some [3, 6] ∧
    (5 : ℕ) ∉ ([3, 6] : List ℕ) ∧
    put_block_completed sampleCourse initProgress 1 2 5 = initProgress ∧
    sampleCourse.validAssessment "asdf" = false ∧
    put_assessment_completed sampleCourse initProgress "asdf" =
      initProgress :=
  ⟨by decide,
   ((stale_id_updates_ignored sampleCourse initProgress 9 9 1 "asdf").1
     (by decide)).1,
   ((stale_id_updates_ignored sampleCourse initProgress 9 9 1 "asdf").1
     (by decide)).2.1,
   by decide, by decide,
   (stale_id_updates_ignored sampleCourse initProgress 1 2 5 "asdf").2.1
     [3, 6] (by decide) (by decide),
   by decide,
   (stale_id_updates_ignored sampleCourse initProgress 1 2 5 "asdf").2.2
     (by decide)⟩

/-- Counterexample for C9: three completed submissions of the known
assessment id "Pre" drive the status to 3, outside the claimed bounded set
{not-started = 0, attempted-once = 1, attempted-again = 2} — exactly the
behaviour `test_progress` asserts (statuses 1, 2, 3). -/
theorem assessment_status_exceeds_cap :
    (iterate_submit sampleCourse "Pre" 3).assessmentStatus "Pre" = 3 ∧
    ¬ ((iterate_submit sampleCourse "Pre" 3).assessmentStatus "Pre" = 0 ∨
       (iterate_submit sampleCourse "Pre" 3).assessmentStatus "Pre" = 1 ∨
       (iterate_submit sampleCourse "Pre" 3).assessmentStatus "Pre" = 2) :=
  by decide

/-- C9 as amended: for a known assessment id the status is a plain
submission counter — after `n` completed submissions it equals `n`, with no
cap (an unknown id stays at the not-started default, see
`stale_id_updates_ignored`). -/
theorem assessment_status_counts_submissions (c : TrackerCourse)
    (aid : String) (h : c.validAssessment aid = true) (n : ℕ) :
    (iterate_submit c aid n).assessmentStatus aid = n := by
  induction n with
  | zero => rfl
  | succ n ih =>
      unfold iterate_submit put_assessment_completed
      rw [h, if_pos rfl]
      dsimp only
      rw [upd_same, ih]

/-- Witness for the amended C9: three submissions of "Pre" give status 3. -/
theorem assessment_status_counts_submissions_witness :
    sampleCourse.validAssessment "Pre" = true ∧
    (iterate_submit sampleCourse "Pre" 3).assessmentStatus "Pre" = 3 :=
  ⟨by decide,
   assessment_status_counts_submissions sampleCourse "Pre" (by decide) 3⟩

/-! ### Transaction and archive theorems. -/

/-- C6: the assessment-submission transaction is atomic over the student's
profile record and answers record: either the transaction aborts and the
datastore is untouched, or the committed datastore carries both the score
update (through `store_score`) on the student record and the answers
update (through `set_answer`) on that student's answers record. -/
theorem update_assessment_atomic (ds : Datastore)
    (email assessment_type new_answers : String) (score : ℚ) :
    (update_assessment_transaction ds email assessment_type new_answers
        score = none ∧
      run_transaction ds email assessment_type new_answers score = ds) ∨
    (∃ student, ds.students email = some student ∧
      (run_transaction ds email assessment_type new_answers score).students
          email =
        some ⟨student.user_id,
          store_score student.scores assessment_type score⟩ ∧
      (run_transaction ds email assessment_type new_answers score).answers
          student.user_id =
        some (set_answer (answers_or_new ds student.user_id)
          assessment_type new_answers)) := by
  cases h : ds.students email with
  | none =>
      left
      have htx : update_assessment_transaction ds email assessment_type
          new_answers score = none := by
        unfold update_assessment_transaction
        rw [h]
      exact ⟨htx, by rw [run_transaction, htx]; rfl⟩
  | some student =>
      right
      have htx : update_assessment_transaction ds email assessment_type
          new_answers score =
          some ⟨upd ds.students email (some ⟨student.user_id,
              store_score student.scores assessment_type score⟩),
            upd ds.answers student.user_id
              (some (set_answer (answers_or_new ds student.user_id)
                assessment_type new_answers))⟩ := by
        unfold update_assessment_transaction
        rw [h]
      refine ⟨student, rfl, ?_, ?_⟩
      · rw [run_transaction, htx]
        exact upd_same _ _ _
      · rw [run_transaction, htx]
        exact upd_same _ _ _

/-- C7: exporting a course whose stored entities have pairwise distinct
paths and importing the archive into an empty course yields exactly as
many entities as the source, whose paths, draft flags, sizes and checksums
are identical to those recorded in the manifest. -/
theorem archive_roundtrip (src : List CourseEntity) (dest : DestCourse)
    (hnd : (src.map CourseEntity.path).Nodup)
    (hu : dest.units = []) (he : dest.entities = []) :
    ∃ dest', upload_course (export_course src) dest = Except.ok dest' ∧
      dest'.entities.length = src.length ∧
      dest'.entities.map manifest_entry_of = (export_course src).manifest := by
  have hlookup : ∀ e ∈ src,
      ((export_course src).files).lookup e.path = some e.content := by
    unfold export_course
    dsimp only
    induction src with
    | nil => intro e he'; exact absurd he' (List.not_mem_nil e)
    | cons e0 tl ih =>
        intro e he'
        cases List.mem_cons.mp he' with
        | inl heq =>
            subst heq
            dsimp only [List.map_cons, List.lookup]
            rw [beq_self_eq_true e.path]
        | inr htl =>
            have hne : e.path ≠ e0.path := by
              intro hpp
              have h0 : e0.path ∈ tl.map CourseEntity.path :=
                hpp ▸ List.mem_map_of_mem CourseEntity.path htl
              have := (List.nodup_cons.mp hnd).1
              exact this h0
            dsimp only [List.map_cons, List.lookup]
            rw [beq_eq_false_iff_ne.mpr hne]
            exact ih (List.nodup_cons.mp hnd).2 e htl
  have hrestore : ∀ (l : List CourseEntity),
      (∀ e ∈ l, ((export_course src).files).lookup e.path = some e.content) →
      restore_entities (export_course src).files (l.map manifest_entry_of) =
        some l := by
    intro l
    induction l with
    | nil => intro _; rfl
    | cons e0 tl ih =>
        intro hall
        have h0 := hall e0 (List.mem_cons_self e0 tl)
        dsimp only [List.map_cons]
        unfold restore_entities
        dsimp only [manifest_entry_of] at h0 ⊢
        rw [h0, ih (fun e he' => hall e (List.mem_cons_of_mem e0 he'))]
        cases e0
        rfl
  refine ⟨⟨dest.units, dest.entities ++ src⟩, ?_, ?_, ?_⟩
  · unfold upload_course
    rw [if_pos (by rw [hu]; rfl)]
    unfold export_course at hrestore ⊢
    rw [hrestore src hlookup]
  · dsimp only
    rw [he, List.nil_append]
  · dsimp only
    rw [he, List.nil_append]
    rfl

/-- Witness for C7 on two concrete entities with distinct paths. -/
theorem archive_roundtrip_witness :
    (sampleEntities.map CourseEntity.path).Nodup ∧
    emptyDest.units = [] ∧ emptyDest.entities = [] ∧
    ∃ dest', upload_course (export_course sampleEntities) emptyDest =
        Except.ok dest' ∧
      dest'.entities.length = sampleEntities.length ∧
      dest'.entities.map manifest_entry_of =
        (export_course sampleEntities).manifest :=
  ⟨by decide, rfl, rfl,
   archive_roundtrip sampleEntities emptyDest (by decide) rfl rfl⟩

/-- C8: importing any archive into a destination course that already has
tree content (a non-empty unit list) fails with the state-conflict error
and leaves the destination's entities (hence their count) unchanged. -/
theorem upload_nonempty_rejected (a : Archive) (dest : DestCourse)
    (h : dest.units ≠ []) :
    upload_course a dest = Except.error UploadError.state_conflict ∧
    (run_upload a dest).entities = dest.entities := by
  have hne : dest.units.isEmpty = false := by
    cases hu : dest.units with
    | nil => exact absurd hu h
    | cons x xs => rfl
  have herr : upload_course a dest =
      Except.error UploadError.state_conflict := by
    unfold upload_course
    rw [hne]
    exact if_neg Bool.false_ne_true
  exact ⟨herr, by rw [run_upload, herr]⟩

/-- Witness for C8: a destination with one unit rejects the archive and
keeps its entity list. -/
theorem upload_nonempty_rejected_witness :
    unitDest.units ≠ [] ∧
    upload_course (export_course sampleEntities) unitDest =
      Except.error UploadError.state_conflict ∧
    (run_upload (export_course sampleEntities) unitDest).entities =
      unitDest.entities :=
  ⟨by decide,
   (upload_nonempty_rejected (export_course sampleEntities) unitDest
     (by decide)).1,
   (upload_nonempty_rejected (export_course sampleEntities) unitDest
     (by decide)).2⟩

end CourseBuilder
